import Mathlib

/-!
Shallow embedding of the NEX vision-overlay client
(`src/nex/ui/static/js/nex-history.js`, the third IIFE, "NEX VISION").

JavaScript numbers are modelled as rationals (`ℚ`), `performance.now()`
timestamps as rationals, DOM text contents as `String`, and the mutable
module-level variables of the IIFE as the fields of `VisionState`.
A JS value that may be `undefined` is modelled as an `Option`; a JS
exception is modelled with `Except Unit`.
-/

namespace NexVision

/-- WebSocket `readyState` values (`CONNECTING`, `OPEN`, `CLOSING`, `CLOSED`).
`openS`/`closedS` stand for the JS constants `OPEN`/`CLOSED`
(`open` is reserved in Lean). -/
inductive ReadyState where
  | connecting
  | openS
  | closing
  | closedS
deriving DecidableEq, Repr

/-- One detection entry as received from the service.  The JS field `class`
is modelled as `cls`.  `bbox` is `none` when the entry has no `bbox`
property (destructuring it then throws); when present it is the array of
its numeric components.  `polygon`, when present, is a list of point
arrays. -/
structure Detection where
  cls : String
  confidence : ℚ
  bbox : Option (List ℚ) := none
  polygon : Option (List (List ℚ)) := none
deriving DecidableEq, Repr

/-- One classification entry (`{class, confidence}`). -/
structure Classification where
  cls : String
  confidence : ℚ
deriving DecidableEq, Repr

/-- A parsed `vision.result` payload.  Absent JSON fields are `none`. -/
structure VisionResultMsg where
  mode : String
  inference_ms : Option ℕ := none
  detections : Option (List Detection) := none
  classifications : Option (List Classification) := none
deriving DecidableEq, Repr

/-- An inbound socket message as seen by `ws.onmessage`: either
`JSON.parse` throws (`malformed`), or it parses to a message of some
other `type` (`other`), or to a `vision.result` (`result`). -/
inductive InMsg where
  | malformed
  | other (t : String)
  | result (msg : VisionResultMsg)
deriving DecidableEq, Repr

/-- One outbound `{type:"frame", ...}` message. -/
structure FrameMsg where
  data : String
  mode : String
  confidence : ℚ
deriving DecidableEq, Repr

/-- One row of the side detection-list panel (`detectionsEl.innerHTML`):
the displayed name (with its `xN` suffix when grouped), the bar-fill
percentage and the confidence percentage. -/
structure DetItem where
  name : String
  barPct : ℤ
  confPct : ℤ
deriving DecidableEq, Repr

deriving instance DecidableEq for Except

/-- `Math.round` on a rational: round half toward positive infinity. -/
def jround (x : ℚ) : ℤ := ⌊x + 1 / 2⌋

/-- The module-level mutable state of the vision IIFE, plus the DOM text
contents the claims talk about. -/
structure VisionState where
  active : Bool
  mode : String
  confThreshold : ℚ
  awaitingResponse : Bool
  sendTimer : Bool
  rafId : Bool
  stream : Bool
  ws : Option ReadyState
  currentDetections : List Detection
  currentMode : String
  frameCount : ℕ
  lastFpsTime : ℚ
  currentFps : ℕ
  lastInferenceMs : ℕ
  fpsText : String
  inferenceText : String
  objectsText : String
  confidenceText : String
  detectionsList : List DetItem
  noCameraText : String
deriving DecidableEq, Repr

/-- The initial values of the module-level variables. -/
def initState : VisionState where
  active := false
  mode := "detect"
  confThreshold := 1 / 4
  awaitingResponse := false
  sendTimer := false
  rafId := false
  stream := false
  ws := none
  currentDetections := []
  currentMode := "detect"
  frameCount := 0
  lastFpsTime := 0
  currentFps := 0
  lastInferenceMs := 0
  fpsText := "0"
  inferenceText := "0ms"
  objectsText := "0"
  confidenceText := "0%"
  detectionsList := []
  noCameraText := "NO CAMERA"

/-! ### Detection-list side panel (`updateDetectionsList`) -/

/-- `groups[d.class]` update step: walking the JS object's entries in
insertion order, the matching class bumps its count and takes the max
confidence (a fresh class starts from `{count: 0, maxConf: 0}`, so its
first confidence is `max 0 conf`), and a new class is appended. -/
def addToGroups : List (String × ℕ × ℚ) → Detection → List (String × ℕ × ℚ)
  | [], d => [(d.cls, 1, max 0 d.confidence)]
  | (c, n, m) :: rest, d =>
      if c = d.cls then (c, n + 1, max m d.confidence) :: rest
      else (c, n, m) :: addToGroups rest d

/-- The `groups` object built by the detect branch of
`updateDetectionsList`, as an association list in insertion order. -/
def groupDetections (dets : List Detection) : List (String × ℕ × ℚ) :=
  dets.foldl addToGroups []

/-- The sort order of `.sort((a, b) => b[1].count - a[1].count)`:
descending occurrence count. -/
def countGE (a b : String × ℕ × ℚ) : Prop := b.2.1 ≤ a.2.1

instance : DecidableRel countGE := fun a b => inferInstanceAs (Decidable (b.2.1 ≤ a.2.1))

instance : IsTotal (String × ℕ × ℚ) countGE := ⟨fun a b => le_total b.2.1 a.2.1⟩

instance : IsTrans (String × ℕ × ℚ) countGE := ⟨fun _ _ _ h1 h2 => le_trans h2 h1⟩

/-- JS `Array.prototype.sort` is stable; a stable sort by descending
count is insertion sort with `countGE`. -/
def sortByCountDesc (l : List (String × ℕ × ℚ)) : List (String × ℕ × ℚ) :=
  List.insertionSort countGE l

/-- Rendering of one grouped row: `name` plus `xN` suffix when `N > 1`,
bar width and confidence both `Math.round(maxConf * 100)`. -/
def renderGroupItem (g : String × ℕ × ℚ) : DetItem where
  name := g.1 ++ (if 1 < g.2.1 then " x" ++ toString g.2.1 else "")
  barPct := jround (g.2.2 * 100)
  confPct := jround (g.2.2 * 100)

/-- Rendering of one classify row: each classification listed
individually with its own confidence. -/
def renderClassifyItem (c : Detection) : DetItem where
  name := c.cls
  barPct := jround (c.confidence * 100)
  confPct := jround (c.confidence * 100)

/-- `updateDetectionsList()`: classify mode lists each entry
individually; detect mode groups by class, sorts by descending count and
renders each group. -/
def updateDetectionsList (m : String) (dets : List Detection) : List DetItem :=
  if m = "classify" then dets.map renderClassifyItem
  else (sortByCountDesc (groupDetections dets)).map renderGroupItem

/-! ### Result handling (`handleVisionResult`) -/

/-- The `currentDetections` value installed by `handleVisionResult`:
classifications mapped to `{class, confidence}` records in classify
mode, otherwise `msg.detections || []`. -/
def resultDetections (msg : VisionResultMsg) : List Detection :=
  if msg.mode = "classify" then
    (msg.classifications.getD []).map fun c => { cls := c.cls, confidence := c.confidence }
  else
    msg.detections.getD []

/-- `handleVisionResult(msg)` at time `now` (`performance.now()`):
installs the result into `currentMode`/`currentDetections`, bumps the
rolling frame counter, snapshots it as the fps when the 1000 ms window
has elapsed, and refreshes the stats texts and the side panel. -/
def handleVisionResult (msg : VisionResultMsg) (now : ℚ) (s : VisionState) : VisionState :=
  let dets := resultDetections msg
  let inf := msg.inference_ms.getD 0
  let fc := s.frameCount + 1
  let snap : Bool := 1000 ≤ now - s.lastFpsTime
  let fps := if snap then fc else s.currentFps
  let fc2 := if snap then 0 else fc
  let lt := if snap then now else s.lastFpsTime
  let objCount := dets.length
  let avgConf : ℚ :=
    if 0 < objCount then ((dets.map Detection.confidence).sum) / (objCount : ℚ) else 0
  { s with
    currentMode := msg.mode
    lastInferenceMs := inf
    currentDetections := dets
    frameCount := fc2
    lastFpsTime := lt
    currentFps := fps
    fpsText := toString fps
    inferenceText := toString inf ++ "ms"
    objectsText := toString objCount
    confidenceText := toString (jround (avgConf * 100)) ++ "%"
    detectionsList := updateDetectionsList msg.mode dets }

/-- Folding a sequence of accepted results (each with its arrival time)
through `handleVisionResult`. -/
def runResults (events : List (VisionResultMsg × ℚ)) (s : VisionState) : VisionState :=
  events.foldl (fun st e => handleVisionResult e.1 e.2 st) s

/-- `ws.onmessage`: the `try` block parses and dispatches `vision.result`
messages; `catch {}` swallows parse failures; in every case
`awaitingResponse = false` runs afterwards. -/
def wsOnMessage (m : InMsg) (now : ℚ) (s : VisionState) : VisionState :=
  let s1 := match m with
    | InMsg.result msg => handleVisionResult msg now s
    | _ => s
  { s1 with awaitingResponse := false }

/-- `ws.onclose`: null out the socket and release the backpressure slot. -/
def wsOnClose (s : VisionState) : VisionState :=
  { s with ws := none, awaitingResponse := false }

/-! ### Frame sending (`startSendLoop`) -/

/-- One capture tick of the `setInterval` body.  `frameData` is the
base64 JPEG encoded from the offscreen canvas on this tick.  Returns the
new state and the frame message sent on this tick, if any. -/
def sendTick (frameData : String) (s : VisionState) : VisionState × Option FrameMsg :=
  if s.active = false ∨ s.ws ≠ some ReadyState.openS ∨ s.awaitingResponse = true then
    (s, none)
  else
    ({ s with awaitingResponse := true },
     some { data := frameData, mode := s.mode, confidence := s.confThreshold })

/-- A run of consecutive capture ticks, collecting every frame message
sent. -/
def sendTicks (frames : List String) (s : VisionState) : VisionState × List FrameMsg :=
  match frames with
  | [] => (s, [])
  | f :: fs =>
      let p := sendTick f s
      let q := sendTicks fs p.1
      (q.1, match p.2 with | none => q.2 | some msg => msg :: q.2)

/-! ### HUD rendering (`startHUDLoop`, `drawDetections`, `drawClassifications`) -/

/-- The pixel rectangle of one bounding box.  A missing bbox component is
JS `undefined`, whose product with a number is `NaN`; both are modelled
as `none`. -/
structure Rect where
  x1 : Option ℚ
  y1 : Option ℚ
  x2 : Option ℚ
  y2 : Option ℚ
deriving DecidableEq, Repr

/-- A polygon point `[x, y]` scaled to the surface. -/
def scalePoint (cw ch : ℚ) (p : List ℚ) : Option ℚ × Option ℚ :=
  ((p.get? 0).map (· * cw), (p.get? 1).map (· * ch))

/-- Everything `drawDetections` paints for one detection: the optional
polygon path (only when `polygon.length > 2`), the box rectangle, and
the label text. -/
structure BoxDraw where
  polyPath : Option (List (Option ℚ × Option ℚ))
  rect : Rect
  label : String
deriving DecidableEq, Repr

/-- The body of the `for (const det of currentDetections)` loop.
`const [nx1, ny1, nx2, ny2] = det.bbox` throws a `TypeError` when
`det.bbox` is not iterable (modelled: `none`); nothing in the loop body
checks the entry first. -/
def drawDet1 (cw ch : ℚ) (d : Detection) : Except Unit BoxDraw :=
  match d.bbox with
  | none => Except.error ()
  | some bb =>
      Except.ok
        { polyPath :=
            match d.polygon with
            | some p => if 2 < p.length then some (p.map (scalePoint cw ch)) else none
            | none => none
          rect :=
            { x1 := (bb.get? 0).map (· * cw)
              y1 := (bb.get? 1).map (· * ch)
              x2 := (bb.get? 2).map (· * cw)
              y2 := (bb.get? 3).map (· * ch) }
          label := d.cls ++ " " ++ toString (jround (d.confidence * 100)) ++ "%" }

/-- `drawDetections(cw, ch)`: the loop draws each entry in order; an
exception thrown by one entry propagates and aborts the rest of the
frame. -/
def drawDetections (cw ch : ℚ) : List Detection → Except Unit (List BoxDraw)
  | [] => Except.ok []
  | d :: ds =>
      match drawDet1 cw ch d with
      | Except.error e => Except.error e
      | Except.ok bd =>
          match drawDetections cw ch ds with
          | Except.error e => Except.error e
          | Except.ok bds => Except.ok (bd :: bds)

/-- One confidence bar of `drawClassifications`: label text and fill
width (`barW = 180` times the confidence). -/
structure Bar where
  label : String
  fillW : ℚ
deriving DecidableEq, Repr

/-- `drawClassifications(cw, ch)` paints one bar per entry. -/
def drawClassifications (dets : List Detection) : List Bar :=
  dets.map fun d =>
    { label := d.cls ++ " " ++ toString (jround (d.confidence * 100)) ++ "%"
      fillW := 180 * d.confidence }

/-- What one HUD frame paints (besides scanline and border chrome). -/
inductive HUDOutput where
  | boxes (l : List BoxDraw)
  | bars (l : List Bar)
deriving DecidableEq, Repr

/-- One tick of the `render()` loop: branch on `currentMode` to draw
either the detect overlay or the classification bars. -/
def renderFrame (cw ch : ℚ) (s : VisionState) : Except Unit HUDOutput :=
  if s.currentMode = "classify" then
    Except.ok (HUDOutput.bars (drawClassifications s.currentDetections))
  else
    (drawDetections cw ch s.currentDetections).map HUDOutput.boxes

/-- The number of detect-style boxes a HUD frame draws. -/
def boxCount : Except Unit HUDOutput → ℕ
  | Except.ok (HUDOutput.boxes l) => l.length
  | _ => 0

/-! ### Camera control and socket lifecycle -/

/-- `connectVisionWS()`: `tokenResp` is the outcome of the
`/api/auth/token` fetch (`none` when it throws: the `catch { return }`
leaves everything untouched); `socketOk` is whether the `WebSocket`
constructor succeeds. -/
def connectVisionWS (tokenResp : Option String) (socketOk : Bool)
    (s : VisionState) : VisionState :=
  match tokenResp with
  | none => s
  | some _ => if socketOk then { s with ws := some ReadyState.connecting } else s

/-- `startCamera()`: `cameraOk` is the outcome of `getUserMedia`.  On
success the stream is installed, `active` is set, the socket is
connected, and the send and HUD loops are started; on failure only the
fallback text is set. -/
def startCamera (cameraOk : Bool) (tokenResp : Option String) (socketOk : Bool)
    (s : VisionState) : VisionState :=
  if cameraOk then
    let s1 := { s with stream := true, active := true }
    let s2 := connectVisionWS tokenResp socketOk s1
    { s2 with sendTimer := true, rafId := true }
  else
    { s with noCameraText := "Camera access denied" }

/-- `stopCamera()`: clears the flag, cancels the timer and the rAF loop,
stops the tracks, calls `ws.close()` and nulls the socket, clears the
canvas state and resets the displayed stats.  The returned `Bool`
records whether a socket existed, so that its (asynchronous) close event
is still pending. -/
def stopCamera (s : VisionState) : VisionState × Bool :=
  ({ s with
      active := false
      sendTimer := false
      rafId := false
      stream := false
      ws := none
      currentDetections := []
      detectionsList := []
      fpsText := "0"
      inferenceText := "0ms"
      objectsText := "0"
      confidenceText := "0%" },
   s.ws.isSome)

/-- `stopCamera()` followed by the delivery of the pending socket close
event (when a socket was open to close). -/
def stopCameraTeardown (s : VisionState) : VisionState :=
  let p := stopCamera s
  if p.2 then wsOnClose p.1 else p.1

/-- The `.vision-mode-btn` click handler: stores the button's mode and
clears the stored detections and the side panel. -/
def modeClick (btnMode : String) (s : VisionState) : VisionState :=
  { s with mode := btnMode, currentDetections := [], detectionsList := [] }

/-! ### Claim-side specification functions (from the claims' words, for
comparison with the source functions above) -/

/-- Spec wording for C10: the number of occurrences of class `c`. -/
def countClass (c : String) (dets : List Detection) : ℕ :=
  (dets.filter fun d => d.cls = c).length

/-- Spec wording for C10: the maximum confidence over the occurrences of
class `c` (the JS accumulator starts from `maxConf: 0`). -/
def maxConfClass (c : String) (dets : List Detection) : ℚ :=
  ((dets.filter fun d => d.cls = c).map Detection.confidence).foldl max 0

/-! ## Concrete states used by witnesses -/

/-- A running session with an open socket and no request in flight. -/
def c1State : VisionState :=
  { initState with
      active := true, stream := true, sendTimer := true, rafId := true,
      ws := some ReadyState.openS }

/-- A running session with a request in flight. -/
def c2State : VisionState :=
  { c1State with awaitingResponse := true }

/-- A concrete detect result with one detection. -/
def c2Msg : VisionResultMsg :=
  { mode := "detect", inference_ms := some 42,
    detections := some [{ cls := "person", confidence := 92 / 100,
                          bbox := some [1 / 10, 1 / 10, 1 / 2, 3 / 5] }] }

/-- A state whose most recent result was a classify result. -/
def c9State : VisionState :=
  { c1State with
      currentMode := "classify",
      currentDetections := [{ cls := "cat", confidence := 3 / 4 }] }

/-! ## Claims -/

/-- Claim C1: on a capture tick, if the session is inactive, or a
request is in flight, or the socket is not open, nothing is sent and the
state is unchanged (nothing queued); otherwise exactly one frame message
(with the current mode and threshold) is sent and `awaitingResponse`
becomes true, so at most one frame request is outstanding. -/
theorem send_tick_gate (frameData : String) (s : VisionState) :
    (s.active = false ∨ s.ws ≠ some ReadyState.openS ∨ s.awaitingResponse = true →
       sendTick frameData s = (s, none))
  ∧ (s.active = true → s.ws = some ReadyState.openS → s.awaitingResponse = false →
       sendTick frameData s =
         ({ s with awaitingResponse := true },
          some { data := frameData, mode := s.mode, confidence := s.confThreshold })) := by
  constructor
  · intro h
    simp only [sendTick, if_pos h]
  · intro h1 h2 h3
    have hn : ¬(s.active = false ∨ s.ws ≠ some ReadyState.openS ∨ s.awaitingResponse = true) := by
      simp [h1, h2, h3]
    simp only [sendTick, if_neg hn]

/-- Witness for C1 at a concrete open, idle session. -/
theorem send_tick_gate_witness :
    (c1State.active = true ∧ c1State.ws = some ReadyState.openS
      ∧ c1State.awaitingResponse = false)
  ∧ sendTick "payload" c1State =
      ({ c1State with awaitingResponse := true },
       some { data := "payload", mode := c1State.mode,
              confidence := c1State.confThreshold }) :=
  ⟨⟨rfl, rfl, rfl⟩, (send_tick_gate "payload" c1State).2 rfl rfl rfl⟩

/-- Claim C2: after `ws.onmessage` runs, `awaitingResponse` is false for
every inbound message; a `vision.result` is forwarded to the detection
state via `handleVisionResult`, while a malformed message (and any
other-typed message) leaves the rest of the state untouched. -/
theorem onmessage_clears_awaiting (m : InMsg) (now : ℚ) (s : VisionState) :
    (wsOnMessage m now s).awaitingResponse = false
  ∧ (∀ msg, m = InMsg.result msg →
       wsOnMessage m now s = { handleVisionResult msg now s with awaitingResponse := false })
  ∧ (m = InMsg.malformed → wsOnMessage m now s = { s with awaitingResponse := false })
  ∧ (∀ t, m = InMsg.other t → wsOnMessage m now s = { s with awaitingResponse := false }) := by
  refine ⟨rfl, ?_, ?_, ?_⟩ <;> intros <;> subst_vars <;> rfl

/-- Witness for C2: a concrete result message and a concrete malformed
message, both received mid-flight, release the backpressure slot. -/
theorem onmessage_clears_awaiting_witness :
    (wsOnMessage (InMsg.result c2Msg) 500 c2State).awaitingResponse = false
  ∧ wsOnMessage (InMsg.result c2Msg) 500 c2State
      = { handleVisionResult c2Msg 500 c2State with awaitingResponse := false }
  ∧ wsOnMessage InMsg.malformed 500 c2State = { c2State with awaitingResponse := false } :=
  ⟨(onmessage_clears_awaiting (InMsg.result c2Msg) 500 c2State).1,
   (onmessage_clears_awaiting (InMsg.result c2Msg) 500 c2State).2.1 c2Msg rfl,
   (onmessage_clears_awaiting InMsg.malformed 500 c2State).2.2.1 rfl⟩

/-- Claim C3 (code evaluated at the failing input): the detect draw loop
has no bounds/shape sanity check.  A detection without a `bbox` makes
`const [nx1, ny1, nx2, ny2] = det.bbox` throw, which aborts the whole
frame: the well-formed entry after it is not drawn, although drawn fine
when the malformed entry is absent. -/
theorem draw_detections_unchecked_bbox_throws :
    drawDetections 640 480
        [{ cls := "person", confidence := 1 / 2 },
         { cls := "cup", confidence := 9 / 10, bbox := some [0, 0, 1 / 2, 1 / 2] }]
      = Except.error ()
  ∧ drawDetections 640 480
        [{ cls := "cup", confidence := 9 / 10, bbox := some [0, 0, 1 / 2, 1 / 2] }]
      = Except.ok
          [{ polyPath := none,
             rect := { x1 := some 0, y1 := some 0, x2 := some 320, y2 := some 240 },
             label := "cup 90%" }] := by
  refine ⟨rfl, ?_⟩
  norm_num [drawDetections, drawDet1, jround]
  rfl

/-- Claim C4: a bounding box normalized as `(nx1, ny1, nx2, ny2)` is
rendered on a `cw × ch` surface as the pixel rectangle
`(nx1*cw, ny1*ch)-(nx2*cw, ny2*ch)`; in particular `(0.1, 0.1, 0.5, 0.6)`
on 640×480 gives `(64, 48)-(320, 288)`. -/
theorem bbox_scaling (cw ch a b c d : ℚ) (cls : String) (conf : ℚ)
    (poly : Option (List (List ℚ))) :
    (drawDet1 cw ch
        { cls := cls, confidence := conf, bbox := some [a, b, c, d],
          polygon := poly }).map BoxDraw.rect
      = Except.ok { x1 := some (a * cw), y1 := some (b * ch),
                    x2 := some (c * cw), y2 := some (d * ch) }
  ∧ (drawDet1 640 480
        { cls := "person", confidence := 92 / 100,
          bbox := some [1 / 10, 1 / 10, 1 / 2, 3 / 5] }).map BoxDraw.rect
      = Except.ok { x1 := some 64, y1 := some 48, x2 := some 320, y2 := some 288 } := by
  refine ⟨rfl, ?_⟩
  norm_num [drawDet1, Except.map]

/-- Claim C8: a mode-button click clears the stored detections and the
side panel immediately, so the next HUD frame draws zero detection
boxes. -/
theorem mode_change_clears_detections (cw ch : ℚ) (btnMode : String) (s : VisionState) :
    (modeClick btnMode s).currentDetections = []
  ∧ (modeClick btnMode s).detectionsList = []
  ∧ boxCount (renderFrame cw ch (modeClick btnMode s)) = 0 := by
  refine ⟨rfl, rfl, ?_⟩
  by_cases h : (modeClick btnMode s).currentMode = "classify"
  · simp [renderFrame, h, boxCount]
  · simp only [renderFrame, if_neg h]
    rfl

/-- Claim C9: the HUD branch is decided by `currentMode` (the mode of
the last handled result) alone: a mode-button click does not change it,
the user-selected `mode` field is irrelevant to the draw, the classify
branch runs exactly when `currentMode = "classify"`, and `currentMode`
changes only when a result carrying that mode is handled. -/
theorem hud_branch_follows_result_mode :
    (∀ (btnMode : String) (s : VisionState),
       (modeClick btnMode s).currentMode = s.currentMode)
  ∧ (∀ (cw ch : ℚ) (s : VisionState) (m : String),
       renderFrame cw ch { s with mode := m } = renderFrame cw ch s)
  ∧ (∀ (cw ch : ℚ) (s : VisionState), s.currentMode = "classify" →
       renderFrame cw ch s
         = Except.ok (HUDOutput.bars (drawClassifications s.currentDetections)))
  ∧ (∀ (cw ch : ℚ) (s : VisionState), s.currentMode ≠ "classify" →
       renderFrame cw ch s = (drawDetections cw ch s.currentDetections).map HUDOutput.boxes)
  ∧ (∀ (msg : VisionResultMsg) (now : ℚ) (s : VisionState),
       (handleVisionResult msg now s).currentMode = msg.mode) := by
  refine ⟨fun _ _ => rfl, fun _ _ _ _ => rfl, ?_, ?_, fun _ _ _ => rfl⟩
  · intro cw ch s h
    simp [renderFrame, h]
  · intro cw ch s h
    simp [renderFrame, h]

/-- Witness for C9: after a classify result, the draw takes the classify
branch even though the user-selected mode is "detect". -/
theorem hud_branch_follows_result_mode_witness :
    c9State.currentMode = "classify" ∧ c9State.mode = "detect"
  ∧ renderFrame 640 480 c9State
      = Except.ok (HUDOutput.bars (drawClassifications c9State.currentDetections)) :=
  ⟨rfl, rfl, hud_branch_follows_result_mode.2.2.1 640 480 c9State rfl⟩

/-- A mid-flight session with nonzero internal stats counters. -/
def c5State : VisionState :=
  { c2State with frameCount := 5, currentFps := 7, lastInferenceMs := 33 }

/-- Counterexample to C5 as stated: stopping the camera does not reset
all stats state — the internal rolling frame counter, the fps snapshot
and the last-inference value survive the teardown (only the displayed
texts are reset), so a quick restart reuses them. -/
theorem stop_camera_keeps_internal_stats :
    (stopCameraTeardown c5State).frameCount ≠ 0
  ∧ (stopCameraTeardown c5State).currentFps ≠ 0
  ∧ (stopCameraTeardown c5State).lastInferenceMs ≠ 0 := by
  refine ⟨?_, ?_, ?_⟩ <;> decide

/-- Claim C5 (amended): stopping the camera, even mid-flight, cancels
the capture timer and the render loop, stops the device tracks, closes
and nulls the socket, clears the detection state, resets the displayed
stats, and — once the socket close event is delivered — leaves
`awaitingResponse` false, so a subsequent start begins with zero
outstanding requests; the internal rolling frame counter and fps
snapshot variables are left unchanged. -/
theorem stop_camera_teardown_spec (s : VisionState)
    (h : s.awaitingResponse = true → s.ws ≠ none) :
    (stopCameraTeardown s).active = false
  ∧ (stopCameraTeardown s).sendTimer = false
  ∧ (stopCameraTeardown s).rafId = false
  ∧ (stopCameraTeardown s).stream = false
  ∧ (stopCameraTeardown s).ws = none
  ∧ (stopCameraTeardown s).awaitingResponse = false
  ∧ (stopCameraTeardown s).currentDetections = []
  ∧ (stopCameraTeardown s).detectionsList = []
  ∧ (stopCameraTeardown s).fpsText = "0"
  ∧ (stopCameraTeardown s).inferenceText = "0ms"
  ∧ (stopCameraTeardown s).objectsText = "0"
  ∧ (stopCameraTeardown s).confidenceText = "0%"
  ∧ (stopCameraTeardown s).frameCount = s.frameCount
  ∧ (stopCameraTeardown s).currentFps = s.currentFps := by
  cases hws : s.ws with
  | some r =>
      simp [stopCameraTeardown, stopCamera, wsOnClose, hws]
  | none =>
      have haw : s.awaitingResponse = false := by
        cases hA : s.awaitingResponse
        · rfl
        · exact absurd hws (h hA)
      simp [stopCameraTeardown, stopCamera, wsOnClose, hws, haw]

/-- Witness for (amended) C5 at a concrete mid-flight session. -/
theorem stop_camera_teardown_spec_witness :
    (c5State.awaitingResponse = true → c5State.ws ≠ none)
  ∧ (stopCameraTeardown c5State).awaitingResponse = false
  ∧ (stopCameraTeardown c5State).ws = none :=
  ⟨fun _ => by decide,
   (stop_camera_teardown_spec c5State (fun _ => by decide)).2.2.2.2.2.1,
   (stop_camera_teardown_spec c5State (fun _ => by decide)).2.2.2.2.1⟩

/-- With no socket, a capture tick does nothing and sends nothing. -/
theorem sendTicks_ws_none (frames : List String) (s : VisionState) (h : s.ws = none) :
    sendTicks frames s = (s, []) := by
  induction frames with
  | nil => rfl
  | cons f fs ih =>
      have hgate : s.active = false ∨ s.ws ≠ some ReadyState.openS ∨ s.awaitingResponse = true :=
        Or.inr (Or.inl (by simp [h]))
      have h1 : sendTick f s = (s, none) := by
        simp only [sendTick, if_pos hgate]
      simp [sendTicks, h1, ih]

/-- Claim C6: when the auth-token fetch throws, `connectVisionWS`
returns early: no socket is ever created, nothing is surfaced to the
user, and however many capture ticks later fire, no frame message is
ever sent on this session. -/
theorem token_fetch_failure_aborts (s : VisionState) (frames : List String)
    (socketOk : Bool) (hws : s.ws = none) :
    (startCamera true none socketOk s).ws = none
  ∧ (sendTicks frames (startCamera true none socketOk s)).2 = []
  ∧ (startCamera true none socketOk s).noCameraText = s.noCameraText := by
  have h0 : (startCamera true none socketOk s).ws = s.ws := rfl
  have h1 : (startCamera true none socketOk s).ws = none := by rw [h0, hws]
  exact ⟨h1, by rw [sendTicks_ws_none frames _ h1], rfl⟩

/-- Witness for C6: a fresh session whose token fetch fails sends no
frame over two subsequent ticks. -/
theorem token_fetch_failure_aborts_witness :
    initState.ws = none
  ∧ (startCamera true none true initState).ws = none
  ∧ (sendTicks ["f1", "f2"] (startCamera true none true initState)).2 = [] :=
  ⟨rfl, (token_fetch_failure_aborts initState ["f1", "f2"] true rfl).1,
   (token_fetch_failure_aborts initState ["f1", "f2"] true rfl).2.1⟩

/-- Stats update of `handleVisionResult` when the 1000 ms window has
elapsed: the incremented counter is snapshotted and displayed, the
counter resets, the window restarts at `now`. -/
theorem handle_fps_snap (msg : VisionResultMsg) (now : ℚ) (s : VisionState)
    (h : 1000 ≤ now - s.lastFpsTime) :
    (handleVisionResult msg now s).currentFps = s.frameCount + 1
  ∧ (handleVisionResult msg now s).frameCount = 0
  ∧ (handleVisionResult msg now s).lastFpsTime = now
  ∧ (handleVisionResult msg now s).fpsText = toString (s.frameCount + 1) := by
  simp [handleVisionResult, h]

/-- Stats update of `handleVisionResult` inside the 1000 ms window: the
counter increments, snapshot and window start are untouched. -/
theorem handle_fps_no_snap (msg : VisionResultMsg) (now : ℚ) (s : VisionState)
    (h : now - s.lastFpsTime < 1000) :
    (handleVisionResult msg now s).frameCount = s.frameCount + 1
  ∧ (handleVisionResult msg now s).currentFps = s.currentFps
  ∧ (handleVisionResult msg now s).lastFpsTime = s.lastFpsTime := by
  have h2 : ¬(1000 ≤ now - s.lastFpsTime) := not_le.mpr h
  simp [handleVisionResult, h2]

/-- Folding a run of results that all arrive inside the window adds
their number to the frame counter and leaves the window start alone. -/
theorem run_no_snap (msg : VisionResultMsg) (ts : List ℚ) (s : VisionState)
    (h : ∀ t ∈ ts, t - s.lastFpsTime < 1000) :
    (runResults (ts.map fun t => (msg, t)) s).frameCount = s.frameCount + ts.length
  ∧ (runResults (ts.map fun t => (msg, t)) s).lastFpsTime = s.lastFpsTime := by
  induction ts generalizing s with
  | nil => simp [runResults]
  | cons t ts ih =>
      have ht : t - s.lastFpsTime < 1000 := h t (by simp)
      obtain ⟨a, _, c⟩ := handle_fps_no_snap msg t s ht
      have hrest : ∀ u ∈ ts, u - (handleVisionResult msg t s).lastFpsTime < 1000 := by
        intro u hu
        rw [c]
        exact h u (by simp [hu])
      have hrec := ih (handleVisionResult msg t s) hrest
      have hstep : runResults ((t :: ts).map fun t => (msg, t)) s
          = runResults (ts.map fun t => (msg, t)) (handleVisionResult msg t s) := rfl
      constructor
      · rw [hstep, hrec.1, a, List.length_cons]
        omega
      · rw [hstep, hrec.2, c]

/-- Claim C7: each accepted result increments the rolling frame counter;
whenever ≥ 1000 ms have elapsed since the counter's last reset, the
incremented counter is snapshotted as the displayed fps and reset; in
particular 9 results inside the window followed by a tenth at the window
boundary display an fps of 10. -/
theorem fps_window_spec (msg : VisionResultMsg) (now : ℚ) (s : VisionState) :
    (1000 ≤ now - s.lastFpsTime →
       (handleVisionResult msg now s).currentFps = s.frameCount + 1
     ∧ (handleVisionResult msg now s).frameCount = 0
     ∧ (handleVisionResult msg now s).lastFpsTime = now)
  ∧ (now - s.lastFpsTime < 1000 →
       (handleVisionResult msg now s).frameCount = s.frameCount + 1
     ∧ (handleVisionResult msg now s).currentFps = s.currentFps
     ∧ (handleVisionResult msg now s).lastFpsTime = s.lastFpsTime)
  ∧ (∀ t1 t2 t3 t4 t5 t6 t7 t8 t9 t10 : ℚ,
       s.frameCount = 0 →
       t1 - s.lastFpsTime < 1000 → t2 - s.lastFpsTime < 1000 →
       t3 - s.lastFpsTime < 1000 → t4 - s.lastFpsTime < 1000 →
       t5 - s.lastFpsTime < 1000 → t6 - s.lastFpsTime < 1000 →
       t7 - s.lastFpsTime < 1000 → t8 - s.lastFpsTime < 1000 →
       t9 - s.lastFpsTime < 1000 → 1000 ≤ t10 - s.lastFpsTime →
       (runResults [(msg, t1), (msg, t2), (msg, t3), (msg, t4), (msg, t5),
                    (msg, t6), (msg, t7), (msg, t8), (msg, t9), (msg, t10)] s).currentFps = 10
     ∧ (runResults [(msg, t1), (msg, t2), (msg, t3), (msg, t4), (msg, t5),
                    (msg, t6), (msg, t7), (msg, t8), (msg, t9), (msg, t10)] s).fpsText
         = "10") := by
  refine ⟨fun h => ?_, fun h => handle_fps_no_snap msg now s h, ?_⟩
  · obtain ⟨a, b, c, _⟩ := handle_fps_snap msg now s h
    exact ⟨a, b, c⟩
  · intro t1 t2 t3 t4 t5 t6 t7 t8 t9 t10 h0 h1 h2 h3 h4 h5 h6 h7 h8 h9 h10
    have hall : ∀ t ∈ [t1, t2, t3, t4, t5, t6, t7, t8, t9], t - s.lastFpsTime < 1000 := by
      intro t ht
      fin_cases ht <;> assumption
    have hpre := run_no_snap msg [t1, t2, t3, t4, t5, t6, t7, t8, t9] s hall
    simp only [List.map_cons, List.map_nil, List.length_cons, List.length_nil] at hpre
    have hsnapC : 1000 ≤ t10 -
        (runResults [(msg, t1), (msg, t2), (msg, t3), (msg, t4), (msg, t5),
                     (msg, t6), (msg, t7), (msg, t8), (msg, t9)] s).lastFpsTime := by
      rw [hpre.2]
      exact h10
    obtain ⟨a, _, _, d⟩ := handle_fps_snap msg t10
      (runResults [(msg, t1), (msg, t2), (msg, t3), (msg, t4), (msg, t5),
                   (msg, t6), (msg, t7), (msg, t8), (msg, t9)] s) hsnapC
    constructor
    · show (handleVisionResult msg t10
          (runResults [(msg, t1), (msg, t2), (msg, t3), (msg, t4), (msg, t5),
                       (msg, t6), (msg, t7), (msg, t8), (msg, t9)] s)).currentFps = 10
      rw [a, hpre.1, h0]
    · show (handleVisionResult msg t10
          (runResults [(msg, t1), (msg, t2), (msg, t3), (msg, t4), (msg, t5),
                       (msg, t6), (msg, t7), (msg, t8), (msg, t9)] s)).fpsText = "10"
      rw [d, hpre.1, h0]
      rfl


/-- Witness for C7: ten results at 100 ms spacing from a fresh window
display an fps of 10 at the window boundary. -/
theorem fps_window_spec_witness :
    (initState.frameCount = 0 ∧ (100 : ℚ) - initState.lastFpsTime < 1000
      ∧ 1000 ≤ (1000 : ℚ) - initState.lastFpsTime)
  ∧ (runResults [(c2Msg, 100), (c2Msg, 200), (c2Msg, 300), (c2Msg, 400), (c2Msg, 500),
                 (c2Msg, 600), (c2Msg, 700), (c2Msg, 800), (c2Msg, 900),
                 (c2Msg, 1000)] initState).currentFps = 10 :=
  ⟨⟨rfl, by norm_num [initState], by norm_num [initState]⟩,
   ((fps_window_spec c2Msg 0 initState).2.2 100 200 300 400 500 600 700 800 900 1000 rfl
      (by norm_num [initState]) (by norm_num [initState]) (by norm_num [initState])
      (by norm_num [initState]) (by norm_num [initState]) (by norm_num [initState])
      (by norm_num [initState]) (by norm_num [initState]) (by norm_num [initState])
      (by norm_num [initState])).1⟩

/-! ### C10: the grouped side panel -/

/-- Lookup of the stored `(count, maxConf)` entry for class `c`. -/
def findGroup (c : String) : List (String × ℕ × ℚ) → Option (ℕ × ℚ)
  | [] => none
  | g :: rest => if g.1 = c then some g.2 else findGroup c rest

/-- The effect of one detection on one class's stored entry. -/
def bump (o : Option (ℕ × ℚ)) (conf : ℚ) : Option (ℕ × ℚ) :=
  match o with
  | none => some (1, max 0 conf)
  | some (n, m) => some (n + 1, max m conf)

theorem findGroup_addToGroups (gs : List (String × ℕ × ℚ)) (d : Detection) (c : String) :
    findGroup c (addToGroups gs d)
      = if d.cls = c then bump (findGroup c gs) d.confidence else findGroup c gs := by
  induction gs with
  | nil =>
      by_cases h : d.cls = c <;> simp [addToGroups, findGroup, bump, h]
  | cons g rest ih =>
      obtain ⟨a, n, m⟩ := g
      by_cases h1 : a = d.cls <;> by_cases h2 : a = c <;> by_cases h3 : d.cls = c <;>
        simp_all [addToGroups, findGroup, bump]

theorem findGroup_foldl (dets : List Detection) (gs : List (String × ℕ × ℚ)) (c : String) :
    findGroup c (dets.foldl addToGroups gs)
      = dets.foldl (fun o d => if d.cls = c then bump o d.confidence else o) (findGroup c gs) := by
  induction dets generalizing gs with
  | nil => rfl
  | cons d ds ih =>
      simp only [List.foldl_cons]
      rw [ih, findGroup_addToGroups]

theorem bump_foldl_some (c : String) (dets : List Detection) (n : ℕ) (m : ℚ) :
    dets.foldl (fun o d => if d.cls = c then bump o d.confidence else o) (some (n, m))
      = some (n + countClass c dets,
              ((dets.filter fun d => d.cls = c).map Detection.confidence).foldl max m) := by
  induction dets generalizing n m with
  | nil => simp [countClass]
  | cons d ds ih =>
      by_cases h : d.cls = c
      · simp only [List.foldl_cons]
        rw [if_pos h]
        have hb : bump (some (n, m)) d.confidence = some (n + 1, max m d.confidence) := rfl
        rw [hb, ih]
        have hc : countClass c (d :: ds) = countClass c ds + 1 := by
          simp [countClass, h]
        have hf : (d :: ds).filter (fun d => d.cls = c) = d :: ds.filter fun d => d.cls = c := by
          simp [List.filter_cons, h]
        rw [hc, hf]
        simp only [List.map_cons, List.foldl_cons, Option.some.injEq, Prod.mk.injEq]
        exact ⟨by omega, trivial⟩
      · simp only [List.foldl_cons]
        rw [if_neg h, ih]
        have hc : countClass c (d :: ds) = countClass c ds := by
          simp [countClass, h]
        have hf : (d :: ds).filter (fun d => d.cls = c) = ds.filter fun d => d.cls = c := by
          simp [List.filter_cons, h]
        rw [hc, hf]

theorem bump_foldl_none (c : String) (dets : List Detection) (h : 0 < countClass c dets) :
    dets.foldl (fun o d => if d.cls = c then bump o d.confidence else o) none
      = some (countClass c dets, maxConfClass c dets) := by
  induction dets with
  | nil => simp [countClass] at h
  | cons d ds ih =>
      by_cases hd : d.cls = c
      · simp only [List.foldl_cons]
        rw [if_pos hd]
        have hb : bump none d.confidence = some (1, max 0 d.confidence) := rfl
        rw [hb, bump_foldl_some]
        have hc : countClass c (d :: ds) = 1 + countClass c ds := by
          simp [countClass, hd]
          omega
        have hf : maxConfClass c (d :: ds)
            = ((ds.filter fun d => d.cls = c).map Detection.confidence).foldl max
                (max 0 d.confidence) := by
          simp [maxConfClass, List.filter_cons, hd]
        rw [hc, hf]
      · simp only [List.foldl_cons]
        rw [if_neg hd]
        have hc : countClass c (d :: ds) = countClass c ds := by
          simp [countClass, hd]
        have hf : maxConfClass c (d :: ds) = maxConfClass c ds := by
          simp [maxConfClass, List.filter_cons, hd]
        rw [hc, hf]
        exact ih (by rw [hc] at h; exact h)

theorem countClass_pos_iff (c : String) (dets : List Detection) :
    0 < countClass c dets ↔ c ∈ dets.map Detection.cls := by
  induction dets with
  | nil => simp [countClass]
  | cons d ds ih =>
      by_cases hd : d.cls = c
      · simp [countClass, List.filter_cons, hd]
      · have hc : countClass c (d :: ds) = countClass c ds := by
          simp [countClass, List.filter_cons, hd]
        rw [hc, ih]
        simp only [List.map_cons, List.mem_cons]
        constructor
        · exact Or.inr
        · rintro (he | hm)
          · exact absurd he.symm hd
          · exact hm

theorem findGroup_groupDetections (c : String) (dets : List Detection)
    (h : 0 < countClass c dets) :
    findGroup c (groupDetections dets) = some (countClass c dets, maxConfClass c dets) := by
  rw [groupDetections, findGroup_foldl]
  exact bump_foldl_none c dets h

theorem addToGroups_keys (gs : List (String × ℕ × ℚ)) (d : Detection) :
    (addToGroups gs d).map Prod.fst
      = if d.cls ∈ gs.map Prod.fst then gs.map Prod.fst
        else gs.map Prod.fst ++ [d.cls] := by
  induction gs with
  | nil => simp [addToGroups]
  | cons g rest ih =>
      obtain ⟨a, n, m⟩ := g
      by_cases h1 : a = d.cls
      · simp [addToGroups, h1]
      · have h2 : ¬d.cls = a := fun he => h1 he.symm
        by_cases h3 : d.cls ∈ rest.map Prod.fst <;>
          simp [addToGroups, h1, h2, h3, ih]

theorem mem_keys_addToGroups (gs : List (String × ℕ × ℚ)) (d : Detection) (c : String) :
    c ∈ (addToGroups gs d).map Prod.fst ↔ c ∈ gs.map Prod.fst ∨ c = d.cls := by
  rw [addToGroups_keys]
  by_cases h : d.cls ∈ gs.map Prod.fst
  · simp only [h, if_pos]
    constructor
    · exact Or.inl
    · rintro (hc | rfl)
      · exact hc
      · exact h
  · simp [h]

theorem nodup_keys_addToGroups (gs : List (String × ℕ × ℚ)) (d : Detection)
    (h : (gs.map Prod.fst).Nodup) : ((addToGroups gs d).map Prod.fst).Nodup := by
  rw [addToGroups_keys]
  by_cases hm : d.cls ∈ gs.map Prod.fst
  · simpa [hm] using h
  · simp [hm, List.nodup_append, h]

theorem keys_foldl_mem (dets : List Detection) (gs : List (String × ℕ × ℚ)) (c : String) :
    c ∈ ((dets.foldl addToGroups gs).map Prod.fst)
      ↔ c ∈ gs.map Prod.fst ∨ c ∈ dets.map Detection.cls := by
  induction dets generalizing gs with
  | nil => simp
  | cons d ds ih =>
      simp only [List.foldl_cons, List.map_cons, List.mem_cons]
      rw [ih, mem_keys_addToGroups]
      tauto

theorem keys_foldl_nodup (dets : List Detection) (gs : List (String × ℕ × ℚ))
    (h : (gs.map Prod.fst).Nodup) :
    ((dets.foldl addToGroups gs).map Prod.fst).Nodup := by
  induction dets generalizing gs with
  | nil => exact h
  | cons d ds ih =>
      simp only [List.foldl_cons]
      exact ih _ (nodup_keys_addToGroups gs d h)

theorem findGroup_eq_some_of_mem (l : List (String × ℕ × ℚ)) (c : String) (p : ℕ × ℚ)
    (hnd : (l.map Prod.fst).Nodup) (hm : (c, p) ∈ l) : findGroup c l = some p := by
  induction l with
  | nil => simp at hm
  | cons g rest ih =>
      simp only [List.map_cons, List.nodup_cons] at hnd
      rcases List.mem_cons.mp hm with hg | hg
      · rw [← hg]
        simp [findGroup]
      · have hne : g.1 ≠ c := by
          intro he
          exact hnd.1 (he ▸ List.mem_map_of_mem Prod.fst hg)
        simp only [findGroup, hne, if_neg, ite_false]
        exact ih hnd.2 hg

/-- `sortByCountDesc` is a permutation of its input. -/
theorem sortByCountDesc_perm (l : List (String × ℕ × ℚ)) :
    List.Perm (sortByCountDesc l) l :=
  List.perm_insertionSort countGE l

/-- Claim C10: for a detect result, the side panel aggregates by class:
each class of the result appears exactly once, carrying its occurrence
count and maximum confidence, the rows are ordered by descending count,
and each row renders as `name[ xN]` with `round(maxConf*100)` as bar and
percentage; in classify mode each entry is listed individually with its
own confidence. -/
theorem detections_list_aggregation (dets : List Detection) :
    updateDetectionsList "classify" dets = dets.map renderClassifyItem
  ∧ updateDetectionsList "detect" dets
      = (sortByCountDesc (groupDetections dets)).map renderGroupItem
  ∧ ((sortByCountDesc (groupDetections dets)).map Prod.fst).Nodup
  ∧ (∀ c, c ∈ (sortByCountDesc (groupDetections dets)).map Prod.fst
        ↔ c ∈ dets.map Detection.cls)
  ∧ (∀ g, g ∈ sortByCountDesc (groupDetections dets) →
        g.2.1 = countClass g.1 dets ∧ g.2.2 = maxConfClass g.1 dets)
  ∧ List.Sorted countGE (sortByCountDesc (groupDetections dets)) := by
  have hperm : List.Perm (sortByCountDesc (groupDetections dets)) (groupDetections dets) :=
    sortByCountDesc_perm _
  have hkeysperm :
      List.Perm ((sortByCountDesc (groupDetections dets)).map Prod.fst)
        ((groupDetections dets).map Prod.fst) := hperm.map Prod.fst
  have hndG : ((groupDetections dets).map Prod.fst).Nodup :=
    keys_foldl_nodup dets [] (by simp)
  have hmemG : ∀ c, c ∈ (groupDetections dets).map Prod.fst ↔ c ∈ dets.map Detection.cls := by
    intro c
    have := keys_foldl_mem dets [] c
    simpa [groupDetections] using this
  refine ⟨rfl, rfl, ?_, ?_, ?_, ?_⟩
  · exact hkeysperm.nodup_iff.mpr hndG
  · intro c
    rw [hkeysperm.mem_iff]
    exact hmemG c
  · intro g hg
    have hgG : g ∈ groupDetections dets := hperm.mem_iff.mp hg
    have hkey : g.1 ∈ dets.map Detection.cls := by
      rw [← hmemG]
      exact List.mem_map_of_mem Prod.fst hgG
    have hpos : 0 < countClass g.1 dets := (countClass_pos_iff g.1 dets).mpr hkey
    have hfind : findGroup g.1 (groupDetections dets) = some g.2 :=
      findGroup_eq_some_of_mem _ _ _ hndG (by rw [show (g.1, g.2) = g from rfl]; exact hgG)
    rw [findGroup_groupDetections g.1 dets hpos] at hfind
    have := Option.some.inj hfind
    constructor
    · rw [← this]
    · rw [← this]
  · exact List.sorted_insertionSort countGE (groupDetections dets)

/-- The concrete detect result for the C10 witness. -/
def c10Dets : List Detection :=
  [{ cls := "person", confidence := 9 / 10 },
   { cls := "cup", confidence := 7 / 10 },
   { cls := "person", confidence := 8 / 10 }]

/-- Witness for C10: the "person" row of a concrete result carries its
occurrence count (2) and its maximum confidence (0.9). -/
theorem detections_list_aggregation_witness :
    (("person", 2, (9 : ℚ) / 10) ∈ sortByCountDesc (groupDetections c10Dets))
  ∧ ((("person", 2, (9 : ℚ) / 10) : String × ℕ × ℚ).2.1 = countClass "person" c10Dets
      ∧ (("person", 2, (9 : ℚ) / 10) : String × ℕ × ℚ).2.2 = maxConfClass "person" c10Dets) := by
  have hmem : ("person", 2, (9 : ℚ) / 10) ∈ sortByCountDesc (groupDetections c10Dets) := by
    norm_num [sortByCountDesc, groupDetections, addToGroups, List.insertionSort,
      List.orderedInsert, countGE, c10Dets, max_def]
  exact ⟨hmem, (detections_list_aggregation c10Dets).2.2.2.2.1 _ hmem⟩

end NexVision
